import Mathlib

/-!
Verification of the statistics core of `paper1_replication_v3.py`.

The script computes contingency-table odds ratios with Woolf confidence
intervals, safe percentages, and several stratified 2×2 tallies over a list
of project-evaluation records.  This file gives a shallow embedding of those
computations and proves (or refutes) the specified properties.

Modelling conventions:
  * Python floats are modelled by `PyFloat`: an ideal real number, the two
    infinities, or NaN.  Overflow of finite floats is not modelled.
  * `math.log` raises `ValueError` on non-positive arguments; fallible code
    therefore lives in `Except Unit`.
  * Cell counts are natural numbers (they are counts of records in the
    source), percentages are computed over `ℚ`.
-/

/-- Model of a Python float value: a finite ideal real, `float('inf')`,
`float('-inf')`, or NaN. -/
inductive PyFloat where
  | fin : ℝ → PyFloat
  | inf : PyFloat
  | ninf : PyFloat
  | nan : PyFloat

/-- Multiplication of a Python float by the positive literal `1.96`
(as in `1.96 * se_ln`, line 97/98 of the source). -/
noncomputable def pyScale196 : PyFloat → PyFloat
  | .fin x => .fin (1.96 * x)
  | .inf => .inf
  | .ninf => .ninf
  | .nan => .nan

/-- `x - y` where `x` is a finite float and `y` a Python float. -/
noncomputable def pySubF (x : ℝ) : PyFloat → PyFloat
  | .fin y => .fin (x - y)
  | .inf => .ninf
  | .ninf => .inf
  | .nan => .nan

/-- `x + y` where `x` is a finite float and `y` a Python float. -/
noncomputable def pyAddF (x : ℝ) : PyFloat → PyFloat
  | .fin y => .fin (x + y)
  | .inf => .inf
  | .ninf => .ninf
  | .nan => .nan

/-- `math.exp` on a Python float: `exp(-inf) = 0.0`, `exp(inf) = inf`. -/
noncomputable def pyExp : PyFloat → PyFloat
  | .fin x => .fin (Real.exp x)
  | .inf => .inf
  | .ninf => .fin 0
  | .nan => .nan

/-- Line 95 of the source:
`se_ln = math.sqrt(1/a + 1/b + 1/c + 1/d) if min(a,b,c,d) > 0 else float('inf')`. -/
noncomputable def woolfSE (a b c d : ℕ) : PyFloat :=
  if 0 < min a (min b (min c d)) then
    PyFloat.fin (Real.sqrt (1 / (a : ℝ) + 1 / (b : ℝ) + 1 / (c : ℝ) + 1 / (d : ℝ)))
  else
    PyFloat.inf

/-- Embedding of `odds_ratio` (source lines 82–99).  Returns the triple
`(OR, ci_lo, ci_hi)`.  The `Except.error` case models the `ValueError`
raised by `math.log(OR)` at line 96 when `OR <= 0` (which happens exactly
when `a*d = 0` while `b*c > 0`, since then `OR = 0.0`). -/
noncomputable def odds_ratio (a b c d : ℕ) : Except Unit (PyFloat × PyFloat × PyFloat) :=
  if b = 0 ∨ c = 0 then
    Except.ok (PyFloat.inf, PyFloat.inf, PyFloat.inf)
  else if ((a * d : ℕ) : ℝ) / ((b * c : ℕ) : ℝ) ≤ 0 then
    Except.error ()
  else
    Except.ok
      (PyFloat.fin (((a * d : ℕ) : ℝ) / ((b * c : ℕ) : ℝ)),
       pyExp (pySubF (Real.log (((a * d : ℕ) : ℝ) / ((b * c : ℕ) : ℝ)))
         (pyScale196 ( woolfSE a b c d))),
       pyExp (pyAddF (Real.log (((a * d : ℕ) : ℝ) / ((b * c : ℕ) : ℝ)))
         (pyScale196 ( woolfSE a b c d))))

/-- Embedding of `pct` (source lines 101–103):
`return (num / denom * 100) if denom > 0 else 0.0`.  The arguments are the
integer counts the script passes; the result is the ideal value of the float
division. -/
def pct (num denom : ℤ) : ℚ :=
  if 0 < denom then (num : ℚ) / (denom : ℚ) * 100 else 0

-- Helper: the closed form of `odds_ratio` on a table with four positive cells.
theorem odds_ratio_pos_eq (a b c d : ℕ)
    (ha : 0 < a) (hb : 0 < b) (hc : 0 < c) (hd : 0 < d) :
    odds_ratio a b c d = Except.ok
      (PyFloat.fin (((a * d : ℕ) : ℝ) / ((b * c : ℕ) : ℝ)),
       PyFloat.fin (Real.exp (Real.log (((a * d : ℕ) : ℝ) / ((b * c : ℕ) : ℝ)) -
         1.96 * Real.sqrt (1 / (a : ℝ) + 1 / (b : ℝ) + 1 / (c : ℝ) + 1 / (d : ℝ)))),
       PyFloat.fin (Real.exp (Real.log (((a * d : ℕ) : ℝ) / ((b * c : ℕ) : ℝ)) +
         1.96 * Real.sqrt (1 / (a : ℝ) + 1 / (b : ℝ) + 1 / (c : ℝ) + 1 / (d : ℝ))))) := by
  have hbc : ¬ (b = 0 ∨ c = 0) := by omega
  have hor : (0 : ℝ) < ((a * d : ℕ) : ℝ) / ((b * c : ℕ) : ℝ) := by
    apply div_pos
    · exact_mod_cast Nat.mul_pos ha hd
    · exact_mod_cast Nat.mul_pos hb hc
  have hmin : 0 < min a (min b (min c d)) := by omega
  rw [ odds_ratio, if_neg hbc, if_neg (not_le.mpr hor), woolfSE, if_pos hmin]
  simp [pyExp, pySubF, pyAddF, pyScale196]

/-- C1: for all strictly positive cell counts `a`, `b`, `c`, `d`,
`odds_ratio` returns the triple `(OR, ci_lo, ci_hi)` with
`OR = (a*d)/(b*c)` exactly and the Woolf 95% bounds
`exp(ln OR ∓ 1.96 * sqrt(1/a + 1/b + 1/c + 1/d))`. -/
theorem odds_ratio_positive_cells (a b c d : ℕ)
    (ha : 0 < a) (hb : 0 < b) (hc : 0 < c) (hd : 0 < d) :
    odds_ratio a b c d = Except.ok
      (PyFloat.fin (((a * d : ℕ) : ℝ) / ((b * c : ℕ) : ℝ)),
       PyFloat.fin (Real.exp (Real.log (((a * d : ℕ) : ℝ) / ((b * c : ℕ) : ℝ)) -
         1.96 * Real.sqrt (1 / (a : ℝ) + 1 / (b : ℝ) + 1 / (c : ℝ) + 1 / (d : ℝ)))),
       PyFloat.fin (Real.exp (Real.log (((a * d : ℕ) : ℝ) / ((b * c : ℕ) : ℝ)) +
         1.96 * Real.sqrt (1 / (a : ℝ) + 1 / (b : ℝ) + 1 / (c : ℝ) + 1 / (d : ℝ))))) :=
  odds_ratio_pos_eq a b c d ha hb hc hd

/-- Witness for C1: the 2×2 table (2, 3, 4, 5). -/
theorem odds_ratio_positive_cells_witness :
    0 < 2 ∧ odds_ratio 2 3 4 5 = Except.ok
      (PyFloat.fin (((2 * 5 : ℕ) : ℝ) / ((3 * 4 : ℕ) : ℝ)),
       PyFloat.fin (Real.exp (Real.log (((2 * 5 : ℕ) : ℝ) / ((3 * 4 : ℕ) : ℝ)) -
         1.96 * Real.sqrt (1 / (2 : ℝ) + 1 / (3 : ℝ) + 1 / (4 : ℝ) + 1 / (5 : ℝ)))),
       PyFloat.fin (Real.exp (Real.log (((2 * 5 : ℕ) : ℝ) / ((3 * 4 : ℕ) : ℝ)) +
         1.96 * Real.sqrt (1 / (2 : ℝ) + 1 / (3 : ℝ) + 1 / (4 : ℝ) + 1 / (5 : ℝ))))) := by
  refine ⟨by norm_num, ?_⟩
  have h := odds_ratio_positive_cells 2 3 4 5 (by norm_num) (by norm_num) (by norm_num)
    (by norm_num)
  rw [h]
  norm_num

/-- C2: whenever `b = 0` or `c = 0`, `odds_ratio` returns the
positive-infinity sentinel for all three outputs, without an error and
without dividing by zero. -/
theorem odds_ratio_zero_denominator (a b c d : ℕ) (h : b = 0 ∨ c = 0) :
    odds_ratio a b c d = Except.ok (PyFloat.inf, PyFloat.inf, PyFloat.inf) := by
  rw [ odds_ratio, if_pos h]

/-- Witness for C2: the table (3, 0, 5, 7). -/
theorem odds_ratio_zero_denominator_witness :
    odds_ratio 3 0 5 7 = Except.ok (PyFloat.inf, PyFloat.inf, PyFloat.inf) :=
  odds_ratio_zero_denominator 3 0 5 7 (Or.inl rfl)

/-- C3 (refutation): with `b > 0`, `c > 0` and `a = 0` or `d = 0`, the code
computes `OR = 0.0` and then `math.log(0.0)` raises `ValueError: math domain
error` — the embedded function returns the error case, not ±infinity CI
bounds. -/
theorem odds_ratio_zero_cell_raises (a b c d : ℕ)
    (hb : 0 < b) (hc : 0 < c) (h : a = 0 ∨ d = 0) :
    odds_ratio a b c d = Except.error () := by
  have hbc : ¬ (b = 0 ∨ c = 0) := by omega
  have had : a * d = 0 := by
    rcases h with h | h <;> simp [h]
  rw [ odds_ratio, if_neg hbc, if_pos]
  rw [had]
  simp

/-- Witness for C3's refutation: `odds_ratio 0 1 1 1` hits the error. -/
theorem odds_ratio_zero_cell_raises_witness :
    odds_ratio 0 1 1 1 = Except.error () :=
  odds_ratio_zero_cell_raises 0 1 1 1 (by norm_num) (by norm_num) (Or.inl rfl)

/-- C6: with all four cells positive, the returned confidence bounds strictly
bracket the returned ratio: `ci_lo < OR < ci_hi`. -/
theorem odds_ratio_ci_brackets (a b c d : ℕ)
    (ha : 0 < a) (hb : 0 < b) (hc : 0 < c) (hd : 0 < d)
    (rv lo hi : ℝ)
    (heq : odds_ratio a b c d = Except.ok (PyFloat.fin rv, PyFloat.fin lo, PyFloat.fin hi)) :
    lo < rv ∧ rv < hi := by
  rw [ odds_ratio_pos_eq a b c d ha hb hc hd] at heq
  simp only [Except.ok.injEq, Prod.mk.injEq, PyFloat.fin.injEq] at heq
  obtain ⟨hrv, hlo, hhi⟩ := heq
  have hor : (0 : ℝ) < ((a * d : ℕ) : ℝ) / ((b * c : ℕ) : ℝ) := by
    apply div_pos
    · exact_mod_cast Nat.mul_pos ha hd
    · exact_mod_cast Nat.mul_pos hb hc
  have hsq : 0 < Real.sqrt (1 / (a : ℝ) + 1 / (b : ℝ) + 1 / (c : ℝ) + 1 / (d : ℝ)) := by
    apply Real.sqrt_pos.mpr
    have h1 : (0 : ℝ) < 1 / (a : ℝ) := by
      apply div_pos one_pos
      exact_mod_cast ha
    have h2 : (0 : ℝ) ≤ 1 / (b : ℝ) := by positivity
    have h3 : (0 : ℝ) ≤ 1 / (c : ℝ) := by positivity
    have h4 : (0 : ℝ) ≤ 1 / (d : ℝ) := by positivity
    linarith
  have hscale : 0 < (1.96 : ℝ) * Real.sqrt (1 / (a : ℝ) + 1 / (b : ℝ) + 1 / (c : ℝ) + 1 / (d : ℝ)) := by
    apply mul_pos (by norm_num) hsq
  constructor
  · rw [← hlo, ← hrv]
    calc Real.exp (Real.log (((a * d : ℕ) : ℝ) / ((b * c : ℕ) : ℝ)) -
          1.96 * Real.sqrt (1 / (a : ℝ) + 1 / (b : ℝ) + 1 / (c : ℝ) + 1 / (d : ℝ)))
        < Real.exp (Real.log (((a * d : ℕ) : ℝ) / ((b * c : ℕ) : ℝ))) := by
          apply Real.exp_lt_exp.mpr
          linarith
      _ = ((a * d : ℕ) : ℝ) / ((b * c : ℕ) : ℝ) := Real.exp_log hor
  · rw [← hhi, ← hrv]
    calc ((a * d : ℕ) : ℝ) / ((b * c : ℕ) : ℝ)
        = Real.exp (Real.log (((a * d : ℕ) : ℝ) / ((b * c : ℕ) : ℝ))) := (Real.exp_log hor).symm
      _ < Real.exp (Real.log (((a * d : ℕ) : ℝ) / ((b * c : ℕ) : ℝ)) +
          1.96 * Real.sqrt (1 / (a : ℝ) + 1 / (b : ℝ) + 1 / (c : ℝ) + 1 / (d : ℝ))) := by
          apply Real.exp_lt_exp.mpr
          linarith

/-- Witness for C6: the table (2, 3, 4, 5). -/
theorem odds_ratio_ci_brackets_witness :
    Real.exp (Real.log (((2 * 5 : ℕ) : ℝ) / ((3 * 4 : ℕ) : ℝ)) -
        1.96 * Real.sqrt (1 / (2 : ℝ) + 1 / (3 : ℝ) + 1 / (4 : ℝ) + 1 / (5 : ℝ)))
      < ((2 * 5 : ℕ) : ℝ) / ((3 * 4 : ℕ) : ℝ) ∧
    ((2 * 5 : ℕ) : ℝ) / ((3 * 4 : ℕ) : ℝ)
      < Real.exp (Real.log (((2 * 5 : ℕ) : ℝ) / ((3 * 4 : ℕ) : ℝ)) +
        1.96 * Real.sqrt (1 / (2 : ℝ) + 1 / (3 : ℝ) + 1 / (4 : ℝ) + 1 / (5 : ℝ))) := by
  have h := odds_ratio_ci_brackets 2 3 4 5 (by norm_num) (by norm_num) (by norm_num)
    (by norm_num) _ _ _ ( odds_ratio_pos_eq 2 3 4 5 (by norm_num) (by norm_num)
      (by norm_num) (by norm_num))
  exact h

/-- C4: `pct` returns `num/denom*100` when `denom > 0` and `0` when
`denom = 0`; in particular `pct 0 0 = 0`, `pct 5 10 = 50`, `pct 3 0 = 0`. -/
theorem pct_spec :
    (∀ num denom : ℤ, 0 < denom → pct num denom = (num : ℚ) / (denom : ℚ) * 100) ∧
    (∀ num : ℤ, pct num 0 = 0) ∧
    pct 0 0 = 0 ∧ pct 5 10 = 50 ∧ pct 3 0 = 0 := by
  refine ⟨fun num denom h => by rw [pct, if_pos h], fun num => by norm_num [pct], ?_, ?_, ?_⟩
    <;> norm_num [pct]

/-- Witness for C4: `pct 5 10` through the positive-denominator branch. -/
theorem pct_spec_witness : 0 < (10 : ℤ) ∧ pct 5 10 = (5 : ℚ) / (10 : ℚ) * 100 :=
  ⟨by norm_num, pct_spec.1 5 10 (by norm_num)⟩

/-- C10: the guard in `pct` is `denom > 0`, so every non-positive
denominator — including strictly negative ones — yields `0`. -/
theorem pct_nonpositive_denominator (num denom : ℤ) (h : denom ≤ 0) :
    pct num denom = 0 := by
  rw [pct, if_neg (by omega)]

/-- Witness for C10: a strictly negative denominator. -/
theorem pct_nonpositive_denominator_witness : pct 7 (-3) = 0 :=
  pct_nonpositive_denominator 7 (-3) (by norm_num)

/-! ### The record model and the classification tables -/

/-- One CSV row of the dataset.  Each field holds the raw string of the
corresponding column; a missing column or blank cell is the empty string
(mirroring `r.get(col, '')` in the source). -/
structure Record where
  outcome : String
  qualityAtEntry : String
  qualityOfSupervision : String
  meQuality : String
  country : String
  globalPractice : String
  practiceGroup : String
  wbRegion : String
  approvalFY : String
deriving DecidableEq

/-- `SAT_RATINGS` (source line 59). -/
def SAT_RATINGS : List String := ["Highly Satisfactory", "Satisfactory"]

/-- `UNSAT_RATINGS` (source line 60). -/
def UNSAT_RATINGS : List String := ["Highly Unsatisfactory", "Unsatisfactory"]

/-- `BROAD_SAT` (source line 61). -/
def BROAD_SAT : List String :=
  ["Highly Satisfactory", "Satisfactory", "Moderately Satisfactory"]

/-- `BROAD_UNSAT` (source line 62). -/
def BROAD_UNSAT : List String :=
  ["Highly Unsatisfactory", "Unsatisfactory", "Moderately Unsatisfactory"]

/-- Whitespace characters removed by Python's `str.strip()` (the ASCII
whitespace that occurs in the data). -/
def isPySpace (c : Char) : Bool :=
  c = ' ' || c = '\t' || c = '\n' || c = '\r' || c = '\x0b' || c = '\x0c'

/-- Model of Python's `str.strip()`: drop leading and trailing whitespace. -/
def pyStrip (s : String) : String :=
  ⟨(((s.data.dropWhile isPySpace).reverse).dropWhile isPySpace).reverse⟩

/-- `r['Outcome'].strip() in BROAD_SAT` — the outcome-success test used by
every tally in the script. -/
def outcomeSat (r : Record) : Bool :=
  decide ( pyStrip r.outcome ∈ BROAD_SAT)

/-- `has_qe_outcome` (source lines 256–258): rows whose stripped
`Quality at Entry` and `Outcome` are both non-blank. -/
def has_qe_outcome (rows : List Record) : List Record :=
  rows.filter (fun r => pyStrip r.qualityAtEntry != "" && pyStrip r.outcome != "")

/-- A record whose stripped `Quality at Entry` is in the strict HIGH
(`SAT_RATINGS`) or strict LOW (`UNSAT_RATINGS`) group. -/
def strictQE (r : Record) : Bool :=
  decide ( pyStrip r.qualityAtEntry ∈ SAT_RATINGS) ||
    decide ( pyStrip r.qualityAtEntry ∈ UNSAT_RATINGS)

/-- Source line 426:
`sector = r.get('Global Practice', '').strip() or r.get('Practice Group', '').strip()`
(Python `or` returns the first operand when it is a non-empty string). -/
def sectorKey (r : Record) : String :=
  if pyStrip r.globalPractice ≠ "" then pyStrip r.globalPractice
  else pyStrip r.practiceGroup

/-- The per-partition counter dict entry
`{'high_sat': 0, 'high_total': 0, 'low_sat': 0, 'low_total': 0}`
(source line 422; the same shape is used for regions and decades). -/
structure SectorCounts where
  high_sat : ℕ
  high_total : ℕ
  low_sat : ℕ
  low_total : ℕ
deriving DecidableEq

/-- All-zero counters, the `defaultdict` default. -/
def initCounts : SectorCounts := ⟨0, 0, 0, 0⟩

/-- The body of the sector loop (source lines 424–438) as a step on the
`sectors` map: skip blank sector keys, then bump the strict-HIGH or
strict-LOW counters of the record's sector. -/
def stepSector (m : String → SectorCounts) (r : Record) : String → SectorCounts :=
  if sectorKey r = "" then m
  else if pyStrip r.qualityAtEntry ∈ SAT_RATINGS then
    fun s => if s = sectorKey r then
      { m ( sectorKey r) with
        high_total := (m ( sectorKey r)).high_total + 1,
        high_sat := (m ( sectorKey r)).high_sat + (if outcomeSat r then 1 else 0) }
    else m s
  else if pyStrip r.qualityAtEntry ∈ UNSAT_RATINGS then
    fun s => if s = sectorKey r then
      { m ( sectorKey r) with
        low_total := (m ( sectorKey r)).low_total + 1,
        low_sat := (m ( sectorKey r)).low_sat + (if outcomeSat r then 1 else 0) }
    else m s
  else m

/-- The `sectors` map after the whole loop over `has_qe_outcome`
(source lines 422–438). -/
def sectorTally (rows : List Record) : String → SectorCounts :=
  ( has_qe_outcome rows).foldl stepSector (fun _ => initCounts)

/-- The keys actually present in the `sectors` dict after the loop: the
distinct non-blank sector keys of strict-rated records (a `defaultdict`
entry is only created inside the two strict branches). -/
def sectorKeysOf (rows : List Record) : List String :=
  ((( has_qe_outcome rows).filter
      (fun r => strictQE r && sectorKey r != "")).map sectorKey).dedup

/-- The sum, over the given partition keys, of per-partition
`high_total + low_total`. -/
def sumTallies (rows : List Record) (secs : List String) : ℕ :=
  (secs.map (fun s => ( sectorTally rows s).high_total + ( sectorTally rows s).low_total)).sum

-- One loop step changes the high+low total of a (non-blank) sector `s`
-- by one exactly when the record's key is `s` and its rating is strict.
theorem stepSector_total (m : String → SectorCounts) (r : Record) (s : String)
    (hs : s ≠ "") :
    ( stepSector m r s).high_total + ( stepSector m r s).low_total
      = (m s).high_total + (m s).low_total
        + (if ( sectorKey r == s && strictQE r) then 1 else 0) := by
  unfold stepSector
  by_cases hk : sectorKey r = ""
  · have hf : (( sectorKey r == s) && strictQE r) = false := by
      have hbs : ( sectorKey r == s) = false := by
        rw [hk]
        exact beq_eq_false_iff_ne.mpr (Ne.symm hs)
      rw [hbs, Bool.false_and]
    rw [if_pos hk, hf]
    simp
  · rw [if_neg hk]
    by_cases hsat : pyStrip r.qualityAtEntry ∈ SAT_RATINGS
    · rw [if_pos hsat]
      have hstrict : strictQE r = true := by
        simp [ strictQE, hsat]
      by_cases hks : s = sectorKey r
      · subst hks
        simp [hstrict]
        omega
      · have hksb : ( sectorKey r == s) = false := by
          simp
          exact fun h => hks h.symm
        simp [hks, hksb]
    · rw [if_neg hsat]
      by_cases hunsat : pyStrip r.qualityAtEntry ∈ UNSAT_RATINGS
      · rw [if_pos hunsat]
        have hstrict : strictQE r = true := by
          simp [ strictQE, hunsat]
        by_cases hks : s = sectorKey r
        · subst hks
          simp [hstrict]
          omega
        · have hksb : ( sectorKey r == s) = false := by
            simp
            exact fun h => hks h.symm
          simp [hks, hksb]
      · rw [if_neg hunsat]
        have hstrict : strictQE r = false := by
          simp [ strictQE, hsat, hunsat]
        simp [hstrict]

-- Folding the loop over a record list: the final high+low total of a
-- non-blank sector counts the strict-rated records with that key.
theorem foldl_stepSector_total (l : List Record) (m : String → SectorCounts)
    (s : String) (hs : s ≠ "") :
    ((l.foldl stepSector m) s).high_total + ((l.foldl stepSector m) s).low_total
      = (m s).high_total + (m s).low_total
        + l.countP (fun r => sectorKey r == s && strictQE r) := by
  induction l generalizing m with
  | nil => simp
  | cons r t ih =>
    rw [List.foldl_cons, List.countP_cons, ih ( stepSector m r),
      stepSector_total m r s hs]
    omega

-- Splitting a key-membership count at the head of a duplicate-free key list.
theorem countP_sector_mem_cons (s : String) (secs : List String) (hns : s ∉ secs)
    (l : List Record) :
    l.countP (fun r => decide ( sectorKey r ∈ s :: secs) && strictQE r)
      = l.countP (fun r => sectorKey r == s && strictQE r)
        + l.countP (fun r => decide ( sectorKey r ∈ secs) && strictQE r) := by
  induction l with
  | nil => simp
  | cons r t ih =>
    simp only [List.countP_cons, ih]
    by_cases hk : sectorKey r = s
    · cases hstrict : strictQE r
      · simp [hk, hns, hstrict]
      · simp [hk, hns, hstrict]
        omega
    · by_cases hm : sectorKey r ∈ secs
      · cases hstrict : strictQE r
        · simp [hk, hm, hstrict]
        · simp [hk, hm, hstrict]
          omega
      · cases hstrict : strictQE r <;> simp [hk, hm, hstrict]

-- Summing per-key strict counts over a duplicate-free key list.
theorem sum_countP_sectors (secs : List String) (hnd : secs.Nodup) (l : List Record) :
    (secs.map (fun s => l.countP (fun r => sectorKey r == s && strictQE r))).sum
      = l.countP (fun r => decide ( sectorKey r ∈ secs) && strictQE r) := by
  induction secs with
  | nil => simp
  | cons s t ih =>
    have hns : s ∉ t := (List.nodup_cons.mp hnd).1
    have hnd' : t.Nodup := (List.nodup_cons.mp hnd).2
    rw [List.map_cons, List.sum_cons, ih hnd', countP_sector_mem_cons s t hns l]

-- A key list covering every non-blank strict key counts exactly the strict
-- records with non-blank keys.
theorem countP_sector_coverage (secs : List String) (hne : "" ∉ secs)
    (l : List Record)
    (hcov : ∀ r ∈ l, strictQE r = true → sectorKey r ≠ "" → sectorKey r ∈ secs) :
    l.countP (fun r => decide ( sectorKey r ∈ secs) && strictQE r)
      = l.countP (fun r => strictQE r && sectorKey r != "") := by
  induction l with
  | nil => simp
  | cons r t ih =>
    have hcov' : ∀ x ∈ t, strictQE x = true → sectorKey x ≠ "" → sectorKey x ∈ secs :=
      fun x hx => hcov x (List.mem_cons_of_mem _ hx)
    rw [List.countP_cons, List.countP_cons, ih hcov']
    congr 1
    by_cases hst : strictQE r = true
    · by_cases hk : sectorKey r = ""
      · simp [hst, hk, hne]
      · have hm : sectorKey r ∈ secs := hcov r (List.mem_cons_self r t) hst hk
        simp [hst, hk, hm]
    · have hst' : strictQE r = false := by
        cases h : strictQE r
        · rfl
        · exact absurd h hst
      simp [hst']

/-- C5 (amended): for any duplicate-free list of partition keys that does not
contain the blank key and contains every non-blank sector key of a
strict-rated record, the sum of per-partition `high_total + low_total`
equals the number of records with non-blank quality and outcome fields,
a strict quality rating, **and a non-blank sector key** (records whose
sector key is blank are skipped by the loop). -/
theorem sector_partition_sum (rows : List Record) (secs : List String)
    (hnd : secs.Nodup) (hne : "" ∉ secs)
    (hcov : ∀ r ∈ has_qe_outcome rows, strictQE r = true → sectorKey r ≠ "" →
      sectorKey r ∈ secs) :
    sumTallies rows secs
      = ( has_qe_outcome rows).countP (fun r => strictQE r && sectorKey r != "") := by
  unfold sumTallies
  have hmap : ∀ s ∈ secs,
      ( sectorTally rows s).high_total + ( sectorTally rows s).low_total
        = ( has_qe_outcome rows).countP (fun r => sectorKey r == s && strictQE r) := by
    intro s hsmem
    have hs : s ≠ "" := fun h => hne (h ▸ hsmem)
    rw [ sectorTally, foldl_stepSector_total _ _ _ hs]
    simp [initCounts]
  rw [List.map_congr_left hmap, sum_countP_sectors secs hnd,
    countP_sector_coverage secs hne _ hcov]

/-- A record with strict quality rating and non-blank outcome but **blank**
sector columns: it is dropped from the sector tallies entirely. -/
def blankSectorRecord : Record :=
  { outcome := "Satisfactory", qualityAtEntry := "Satisfactory",
    qualityOfSupervision := "", meQuality := "", country := "",
    globalPractice := "", practiceGroup := "", wbRegion := "", approvalFY := "" }

/-- C5 (counterexample to the claim as stated): on a single strict-rated
record with non-blank quality and outcome fields but blank sector columns,
the sum over **all** partitions actually present in the `sectors` dict is
`0`, while the claimed right-hand side (which has no non-blank-sector
restriction) is `1`. -/
theorem sector_partition_sum_cex :
    sumTallies [blankSectorRecord] ( sectorKeysOf [blankSectorRecord]) = 0 ∧
    ( has_qe_outcome [blankSectorRecord]).countP strictQE = 1 := by
  constructor <;> decide

/-- Witness rows for the amended C5: one strict-rated record in sector
`Energy` and one bystander with a non-strict rating. -/
def sectorWitnessRows : List Record :=
  [{ outcome := "Satisfactory", qualityAtEntry := "Highly Satisfactory",
     qualityOfSupervision := "", meQuality := "", country := "",
     globalPractice := "Energy", practiceGroup := "", wbRegion := "",
     approvalFY := "" },
   { outcome := "Unsatisfactory", qualityAtEntry := "Moderately Satisfactory",
     qualityOfSupervision := "", meQuality := "", country := "",
     globalPractice := "Water", practiceGroup := "", wbRegion := "",
     approvalFY := "" }]

/-- Witness for C5: the covering key list `["Energy", "Water"]`. -/
theorem sector_partition_sum_witness :
    sumTallies sectorWitnessRows ["Energy", "Water"]
      = ( has_qe_outcome sectorWitnessRows).countP
          (fun r => strictQE r && sectorKey r != "") :=
  sector_partition_sum sectorWitnessRows ["Energy", "Water"]
    (by decide) (by decide) (by decide)

/-! ### Decade analysis (source lines 505–528) -/

/-- An unsigned decimal numeral, as accepted by Python's `int()` after the
sign: non-empty and all digits. -/
def digitsToNat? (l : List Char) : Option ℕ :=
  if l ≠ [] ∧ l.all (fun c => c.isDigit) then
    some (l.foldl (fun acc c => acc * 10 + (c.toNat - 48)) 0)
  else none

/-- Model of Python's `int(s)` on a CSV field: strip surrounding whitespace,
allow an optional sign, then require a decimal numeral; anything else raises
`ValueError`, modelled as `none`. -/
def pyInt? (s : String) : Option ℤ :=
  match ( pyStrip s).data with
  | [] => none
  | c :: rest =>
    if c = '-' then ( digitsToNat? rest).map (fun n => -(n : ℤ))
    else if c = '+' then ( digitsToNat? rest).map (fun n => (n : ℤ))
    else ( digitsToNat? (c :: rest)).map (fun n => (n : ℤ))

/-- Source line 516: `decade = (fy // 10) * 10` (Python `//` is floor
division, `Int.fdiv`). -/
def decadeBucket (fy : ℤ) : ℤ := fy.fdiv 10 * 10

/-- The body of the decade loop (source lines 510–528): parse the fiscal
year (a `ValueError` means `continue`), skip buckets below 1970, then bump
the strict-HIGH or strict-LOW counters of the record's decade. -/
def stepDecade (m : ℤ → SectorCounts) (r : Record) : ℤ → SectorCounts :=
  match pyInt? r.approvalFY with
  | none => m
  | some fy =>
    if decadeBucket fy < 1970 then m
    else if pyStrip r.qualityAtEntry ∈ SAT_RATINGS then
      fun k => if k = decadeBucket fy then
        { m ( decadeBucket fy) with
          high_total := (m ( decadeBucket fy)).high_total + 1,
          high_sat := (m ( decadeBucket fy)).high_sat + (if outcomeSat r then 1 else 0) }
      else m k
    else if pyStrip r.qualityAtEntry ∈ UNSAT_RATINGS then
      fun k => if k = decadeBucket fy then
        { m ( decadeBucket fy) with
          low_total := (m ( decadeBucket fy)).low_total + 1,
          low_sat := (m ( decadeBucket fy)).low_sat + (if outcomeSat r then 1 else 0) }
      else m k
    else m

/-- The `decades` map after the whole loop over `has_qe_outcome`
(source lines 508–528). -/
def decadeTally (rows : List Record) : ℤ → SectorCounts :=
  ( has_qe_outcome rows).foldl stepDecade (fun _ => initCounts)

/-- C7: fiscal years bucket to `(fy // 10) * 10` (so 1987 ↦ 1980); a record
whose fiscal year does not parse or whose bucket is below 1970 leaves every
decade counter unchanged (no fatal error), and the sector analysis never
reads the fiscal-year field at all, so other slices are unaffected. -/
theorem decade_exclusion (rows : List Record) (r : Record)
    (m : ℤ → SectorCounts) (sm : String → SectorCounts) (x : String)
    (h : pyInt? r.approvalFY = none ∨
      ∃ fy, pyInt? r.approvalFY = some fy ∧ decadeBucket fy < 1970) :
    decadeBucket 1987 = 1980 ∧
    (∀ fy : ℤ, decadeBucket fy = fy.fdiv 10 * 10) ∧
    stepDecade m r = m ∧
    decadeTally (rows ++ [r]) = decadeTally rows ∧
    stepSector sm { r with approvalFY := x } = stepSector sm r := by
  have hstep : ∀ m' : ℤ → SectorCounts, stepDecade m' r = m' := by
    intro m'
    unfold stepDecade
    rcases h with h | ⟨fy, hfy, hlt⟩
    · rw [h]
    · rw [hfy]
      simp [hlt]
  refine ⟨by decide, fun fy => rfl, hstep m, ?_, rfl⟩
  unfold decadeTally has_qe_outcome
  rw [List.filter_append, List.foldl_append]
  by_cases hp : ( pyStrip r.qualityAtEntry != "" && pyStrip r.outcome != "") = true
  · rw [List.filter_cons, if_pos hp, List.filter_nil, List.foldl_cons, List.foldl_nil,
      hstep]
  · rw [List.filter_cons, if_neg hp, List.filter_nil, List.foldl_nil]

/-- A strict-rated record whose fiscal year 1965 is below the 1970 floor. -/
def oldDecadeRecord : Record :=
  { outcome := "Satisfactory", qualityAtEntry := "Satisfactory",
    qualityOfSupervision := "", meQuality := "", country := "",
    globalPractice := "", practiceGroup := "", wbRegion := "",
    approvalFY := "1965" }

/-- Witness for C7: fiscal year 1965 is dropped from the decade tallies. -/
theorem decade_exclusion_witness :
    decadeBucket 1987 = 1980 ∧
    decadeTally ([] ++ [oldDecadeRecord]) = decadeTally [] := by
  have h := decade_exclusion [] oldDecadeRecord (fun _ => initCounts)
    (fun _ => initCounts) "" (Or.inr ⟨1965, by decide, by decide⟩)
  exact ⟨h.1, h.2.2.2.1⟩

/-! ### Combined QAE + M&E score (source lines 592–617) -/

/-- `qae_map` (source lines 595–598). -/
def qae_map : List (String × ℕ) :=
  [("Highly Satisfactory", 5), ("Satisfactory", 4), ("Moderately Satisfactory", 3),
   ("Moderately Unsatisfactory", 2), ("Unsatisfactory", 1), ("Highly Unsatisfactory", 1)]

/-- `me_map` (source lines 599–602), including the defensive trailing-space
key `"Modest "` present in the source. -/
def me_map : List (String × ℕ) :=
  [("High", 5), ("Substantial", 4), ("Modest", 3), ("Modest ", 3),
   ("Negligible", 2), ("Not Applicable", 1)]

/-- `has_both` (source lines 604–607): rows whose stripped QE and M&E labels
are keys of the scoring maps and whose outcome is non-blank. -/
def has_both (rows : List Record) : List Record :=
  rows.filter (fun r =>
    ( qae_map.lookup ( pyStrip r.qualityAtEntry)).isSome &&
    ( me_map.lookup ( pyStrip r.meQuality)).isSome &&
    pyStrip r.outcome != "")

/-- One `score_bins[combined]` dict entry `{'sat': 0, 'total': 0}`
(source line 609). -/
structure SatTotal where
  sat : ℕ
  total : ℕ
deriving DecidableEq

/-- The body of the combined-score loop (source lines 610–617): look both
scores up and bump the bin of their sum.  The catch-all branch is
unreachable for records of `has_both`. -/
def stepScore (m : ℕ → SatTotal) (r : Record) : ℕ → SatTotal :=
  match qae_map.lookup ( pyStrip r.qualityAtEntry),
        me_map.lookup ( pyStrip r.meQuality) with
  | some qs, some ms =>
    fun k => if k = qs + ms then
      { sat := (m (qs + ms)).sat + (if outcomeSat r then 1 else 0),
        total := (m (qs + ms)).total + 1 }
    else m k
  | _, _ => m

/-- The `score_bins` map after the whole loop over `has_both`. -/
def score_bins (rows : List Record) : ℕ → SatTotal :=
  ( has_both rows).foldl stepScore (fun _ => ⟨0, 0⟩)

-- The loop step under successful score lookups: exactly the `combined` bin
-- is updated.
theorem stepScore_eq (m : ℕ → SatTotal) (r : Record) (qs ms : ℕ)
    (hq : qae_map.lookup ( pyStrip r.qualityAtEntry) = some qs)
    (hm : me_map.lookup ( pyStrip r.meQuality) = some ms) :
    stepScore m r = fun k => if k = qs + ms then
      { sat := (m (qs + ms)).sat + (if outcomeSat r then 1 else 0),
        total := (m (qs + ms)).total + 1 }
    else m k := by
  unfold stepScore
  rw [hq, hm]

-- Appending a record that passes the `has_both` filter appends one loop step.
theorem score_bins_append_pass (rows : List Record) (r : Record)
    (hq : ( qae_map.lookup ( pyStrip r.qualityAtEntry)).isSome = true)
    (hm : ( me_map.lookup ( pyStrip r.meQuality)).isSome = true)
    (ho : pyStrip r.outcome ≠ "") :
    score_bins (rows ++ [r]) = stepScore ( score_bins rows) r := by
  unfold score_bins has_both
  rw [List.filter_append, List.foldl_append, List.filter_cons, if_pos,
    List.filter_nil, List.foldl_cons, List.foldl_nil]
  simp [hq, hm, ho]

-- Appending a record with an unmapped QE or M&E label changes nothing.
theorem score_bins_append_skip (rows : List Record) (r : Record)
    (h : qae_map.lookup ( pyStrip r.qualityAtEntry) = none ∨
      me_map.lookup ( pyStrip r.meQuality) = none) :
    has_both (rows ++ [r]) = has_both rows ∧
    score_bins (rows ++ [r]) = score_bins rows := by
  have hfail : (( qae_map.lookup ( pyStrip r.qualityAtEntry)).isSome &&
      ( me_map.lookup ( pyStrip r.meQuality)).isSome &&
      ( pyStrip r.outcome != "")) = false := by
    rcases h with h | h <;> rw [h] <;> simp
  constructor
  · unfold has_both
    rw [List.filter_append, List.filter_cons, if_neg, List.filter_nil,
      List.append_nil]
    rw [hfail]
    simp
  · unfold score_bins has_both
    rw [List.filter_append, List.filter_cons, if_neg, List.filter_nil,
      List.append_nil]
    rw [hfail]
    simp

/-- C8: a record with QE "Highly Satisfactory" (5) and M&E "Substantial" (4)
lands in combined bin 9 and in no other bin; QE "Satisfactory" (4) with
M&E "Not Applicable" (1) lands in bin 5; a record whose stripped QE or M&E
label is not a key of the scoring maps is excluded from the combined-score
analysis entirely (no bin changes, no default score). -/
theorem combined_score_buckets :
    (∀ (rows : List Record) (r : Record),
      pyStrip r.qualityAtEntry = "Highly Satisfactory" →
      pyStrip r.meQuality = "Substantial" →
      pyStrip r.outcome ≠ "" →
      ( score_bins (rows ++ [r]) 9).total = ( score_bins rows 9).total + 1 ∧
      ∀ k, k ≠ 9 → score_bins (rows ++ [r]) k = score_bins rows k) ∧
    (∀ (rows : List Record) (r : Record),
      pyStrip r.qualityAtEntry = "Satisfactory" →
      pyStrip r.meQuality = "Not Applicable" →
      pyStrip r.outcome ≠ "" →
      ( score_bins (rows ++ [r]) 5).total = ( score_bins rows 5).total + 1 ∧
      ∀ k, k ≠ 5 → score_bins (rows ++ [r]) k = score_bins rows k) ∧
    (∀ (rows : List Record) (r : Record),
      ( qae_map.lookup ( pyStrip r.qualityAtEntry) = none ∨
        me_map.lookup ( pyStrip r.meQuality) = none) →
      has_both (rows ++ [r]) = has_both rows ∧
      score_bins (rows ++ [r]) = score_bins rows) := by
  refine ⟨?_, ?_, fun rows r h => score_bins_append_skip rows r h⟩
  · intro rows r hqe hme ho
    have hq' : qae_map.lookup ( pyStrip r.qualityAtEntry) = some 5 := by
      rw [hqe]
      decide
    have hm' : me_map.lookup ( pyStrip r.meQuality) = some 4 := by
      rw [hme]
      decide
    rw [ score_bins_append_pass rows r (by rw [hq']; rfl) (by rw [hm']; rfl) ho,
      stepScore_eq ( score_bins rows) r 5 4 hq' hm']
    constructor
    · simp
    · intro k hk
      simp [hk]
  · intro rows r hqe hme ho
    have hq' : qae_map.lookup ( pyStrip r.qualityAtEntry) = some 4 := by
      rw [hqe]
      decide
    have hm' : me_map.lookup ( pyStrip r.meQuality) = some 1 := by
      rw [hme]
      decide
    rw [ score_bins_append_pass rows r (by rw [hq']; rfl) (by rw [hm']; rfl) ho,
      stepScore_eq ( score_bins rows) r 4 1 hq' hm']
    constructor
    · simp
    · intro k hk
      simp [hk]

/-- A record with QE "Highly Satisfactory" and M&E "Substantial". -/
def comboRecord : Record :=
  { outcome := "Moderately Satisfactory", qualityAtEntry := "Highly Satisfactory",
    qualityOfSupervision := "", meQuality := "Substantial", country := "",
    globalPractice := "", practiceGroup := "", wbRegion := "", approvalFY := "" }

/-- Witness for C8: the 5+4 record lands in bin 9 and leaves bin 3 alone. -/
theorem combined_score_buckets_witness :
    ( score_bins ([] ++ [comboRecord]) 9).total
        = ( score_bins ([] : List Record) 9).total + 1 ∧
    score_bins ([] ++ [comboRecord]) 3 = score_bins ([] : List Record) 3 := by
  have h := combined_score_buckets.1 [] comboRecord (by decide) (by decide) (by decide)
  exact ⟨h.1, h.2 3 (by decide)⟩

/-! ### Outcome classification (source lines 61–62, 222–225) -/

/-- `has_outcome` (source line 222): rows with a non-blank stripped outcome. -/
def has_outcome (rows : List Record) : List Record :=
  rows.filter (fun r => pyStrip r.outcome != "")

/-- `sat` (source line 223): broad-satisfactory outcomes. -/
def sat (rows : List Record) : List Record :=
  ( has_outcome rows).filter (fun r => decide ( pyStrip r.outcome ∈ BROAD_SAT))

/-- `unsat` (source line 224): broad-unsatisfactory outcomes. -/
def unsat (rows : List Record) : List Record :=
  ( has_outcome rows).filter (fun r => decide ( pyStrip r.outcome ∈ BROAD_UNSAT))

-- No outcome string is in both broad classification sets.
theorem broad_disjoint (v : String) : ¬(v ∈ BROAD_SAT ∧ v ∈ BROAD_UNSAT) := by
  intro ⟨h1, h2⟩
  simp only [BROAD_SAT, List.mem_cons, List.not_mem_nil, or_false] at h1
  rcases h1 with rfl | rfl | rfl <;> revert h2 <;> decide

-- Counting a list with two mutually exclusive predicates and their common
-- complement exhausts its length.
theorem countP_three_split (l : List Record) (p q : Record → Bool)
    (hdisj : ∀ r, ¬(p r = true ∧ q r = true)) :
    l.countP p + l.countP q + l.countP (fun r => !p r && !q r) = l.length := by
  induction l with
  | nil => simp
  | cons r t ih =>
    rw [List.countP_cons, List.countP_cons, List.countP_cons, List.length_cons]
    cases hp : p r
    · cases hq : q r
      · simp
        omega
      · simp
        omega
    · cases hq : q r
      · simp
        omega
      · exact absurd ⟨hp, hq⟩ (hdisj r)

/-- C9: the broad-satisfactory and broad-unsatisfactory outcome sets are
disjoint, no record is counted in both groups, and together with the
"neither" class the three classes partition the rated records. -/
theorem outcome_classes_exclusive :
    BROAD_SAT.inter BROAD_UNSAT = [] ∧
    (∀ rows : List Record,
      rows.countP (fun r => decide ( pyStrip r.outcome ∈ BROAD_SAT) &&
        decide ( pyStrip r.outcome ∈ BROAD_UNSAT)) = 0) ∧
    (∀ rows : List Record,
      ( sat rows).length + ( unsat rows).length +
        ( has_outcome rows).countP
          (fun r => !(decide ( pyStrip r.outcome ∈ BROAD_SAT)) &&
            !(decide ( pyStrip r.outcome ∈ BROAD_UNSAT))) =
      ( has_outcome rows).length) := by
  refine ⟨by decide, ?_, ?_⟩
  · intro rows
    rw [List.countP_eq_zero]
    intro r _
    simp only [Bool.and_eq_true, decide_eq_true_eq, not_and]
    exact fun h1 h2 => broad_disjoint _ ⟨h1, h2⟩
  · intro rows
    rw [ sat, unsat, ← List.countP_eq_length_filter, ← List.countP_eq_length_filter]
    exact countP_three_split ( has_outcome rows) _ _
      (fun r => by
        simp only [decide_eq_true_eq, not_and]
        exact fun h1 h2 => broad_disjoint _ ⟨h1, h2⟩)
